import Mathlib

/-!
Verification development for the finopsbridge Policy Enforcement &
Remediation Engine.

This file gives a shallow embedding, in Lean 4, of the engine code:

* the enforcement worker (`worker` package: `run`, `processProvider`,
  `evaluatePolicy`, `handleViolation`, `remediate`, `sendWebhooks`,
  `formatWebhookPayload`, `sendWebhookRequest`);
* the OPA rule-evaluation engines (the stub engine whose
  `EvaluatePolicy` always allows, and the rego-backed engine with the
  fail-open missing-policy path);
* the per-provider remediation actions of the `cloud` package
  (`stopAWSNonEssentialResources`, `stopGCPNonEssentialResources`,
  `terminateAWSOversizedInstances`, and the stub 3-argument
  `TerminateOversizedInstances` / `StopIdleResources` that the worker
  calls).

External I/O (the cloud SDKs, the rego runtime, HTTP webhook delivery,
billing collection) is modelled by explicit oracle environments; the
database is modelled as an explicit record of entity lists, with gorm
`Create` appending a row and gorm `Save` replacing the row with the same
primary key.  Go `float64` money amounts are idealized as `ℚ`. Strings
that the Go code builds with `fmt.Sprintf` are rebuilt by concatenation.
-/

namespace FinOpsBridge

/-! ## Data model (`models` package) -/

/-- `models.Policy` (the fields the engine reads). -/
structure Policy where
  id : String
  organizationID : String
  name : String
  description : String
  type : String
  enabled : Bool
  rego : String
  config : String
deriving Repr, DecidableEq

/-- `models.CloudProvider` (the fields the engine reads or writes). -/
structure CloudProvider where
  id : String
  organizationID : String
  name : String
  type : String
  accountID : String
  subscriptionID : String
  projectID : String
  status : String
  monthlySpend : ℚ
  credentials : String
deriving Repr, DecidableEq

/-- `models.PolicyViolation`. `remediatedAt` is the nullable timestamp,
with time modelled as `ℕ`. -/
structure PolicyViolation where
  id : String
  policyID : String
  resourceID : String
  resourceType : String
  cloudProvider : String
  message : String
  severity : String
  status : String
  remediatedAt : Option ℕ
deriving Repr, DecidableEq

/-- `models.ActivityLog` (append-only audit record). -/
structure ActivityLog where
  organizationID : String
  type : String
  message : String
  metadata : String
deriving Repr, DecidableEq

/-- `models.Webhook`. -/
structure Webhook where
  id : String
  organizationID : String
  type : String
  url : String
  enabled : Bool
deriving Repr, DecidableEq

/-- The database state touched by the engine: one list per table. -/
structure DB where
  policies : List Policy
  providers : List CloudProvider
  violations : List PolicyViolation
  activityLogs : List ActivityLog
  webhooks : List Webhook
deriving Repr, DecidableEq

/-! ## Cloud-level remediation actions (`cloud` package)

The AWS / GCP SDK responses are oracle environments.  A `CloudCall`
records one stop/terminate API call the code issues, together with the
outcome the oracle returned for it. -/

/-- One issued cloud mutation (EC2 `StopInstances`, `TerminateInstances`,
GCE `Instances.Stop`, ...). -/
structure CloudCall where
  action : String
  resourceId : String
  zone : String
  success : Bool
deriving Repr, DecidableEq

/-- An EC2 instance as returned by `DescribeInstances` (id, type, tags). -/
structure Instance where
  instanceId : String
  instanceType : String
  tags : List (String × String)
deriving Repr, DecidableEq

/-- The AWS environment: session creation, the `DescribeInstances`
response (a list of reservations, each a list of instances, already
filtered to `instance-state-name = running` as in the code), and the
per-instance outcome of `StopInstances` / `TerminateInstances`. -/
structure AWSEnv where
  sessionError : Option String
  describeInstances : Except String (List (List Instance))
  stopSucceeds : String → Bool
  terminateSucceeds : String → Bool

/-- The `Essential` tag equality check of the AWS loops:
`*tag.Key == "Essential" && *tag.Value == "true"`. -/
def hasEssentialTag (inst : Instance) : Bool :=
  inst.tags.any (fun t => t.1 == "Essential" && t.2 == "true")

/-- Inner instance loop of `stopAWSNonEssentialResources`: the running
`count` of successful stops, the `break` once `count >= 5`, the
`Essential` tag skip, and a stop call whose failure is only logged (the
count is incremented only in the success branch). -/
def stopAWSLoop (env : AWSEnv) : List Instance → ℕ → List CloudCall × ℕ
  | [], count => ([], count)
  | inst :: rest, count =>
    if 5 ≤ count then ([], count)
    else if hasEssentialTag inst then stopAWSLoop env rest count
    else
      let ok := env.stopSucceeds inst.instanceId
      let next := stopAWSLoop env rest (if ok then count + 1 else count)
      (⟨"stop", inst.instanceId, "", ok⟩ :: next.1, next.2)

/-- Outer reservation loop of `stopAWSNonEssentialResources` (the
`break` only leaves the inner loop, so later reservations re-enter it
with the saturated count and immediately break again). -/
def stopAWSReservations (env : AWSEnv) :
    List (List Instance) → ℕ → List CloudCall × ℕ
  | [], count => ([], count)
  | res :: rest, count =>
    let inner := stopAWSLoop env res count
    let next := stopAWSReservations env rest inner.2
    (inner.1 ++ next.1, next.2)

/-- `cloud.stopAWSNonEssentialResources`: build a session, describe the
running instances, then stop up to 5 non-essential ones.  Returns the
issued calls and the Go error value. -/
def stopAWSNonEssentialResources (env : AWSEnv) :
    List CloudCall × Option String :=
  match env.sessionError with
  | some e => ([], some e)
  | none =>
    match env.describeInstances with
    | .error e => ([], some e)
    | .ok reservations => ((stopAWSReservations env reservations 0).1, none)

/-- A GCE instance (name and labels) as listed per zone. -/
structure GCPInstance where
  name : String
  labels : List (String × String)
deriving Repr, DecidableEq

/-- The GCP environment: setup (credentials parse / compute client),
the zone listing, the per-zone instance listing (already filtered to
`status=RUNNING`), and the per-instance outcome of `Instances.Stop`. -/
structure GCPEnv where
  setupError : Option String
  zones : Except String (List String)
  listInstances : String → Except String (List GCPInstance)
  stopSucceeds : String → String → Bool

/-- The `essential` label equality check of the GCP loop:
`instance.Labels["essential"] == "true"`. -/
def hasEssentialLabel (inst : GCPInstance) : Bool :=
  match inst.labels.lookup "essential" with
  | some v => v == "true"
  | none => false

/-- Inner instance loop of `stopGCPNonEssentialResources` for one zone:
`maxStops = 5`, counting only successful stops (a failed stop is logged
and `continue`d without incrementing the count). -/
def stopGCPLoop (env : GCPEnv) (zone : String) :
    List GCPInstance → ℕ → List CloudCall × ℕ
  | [], count => ([], count)
  | inst :: rest, count =>
    if 5 ≤ count then ([], count)
    else if hasEssentialLabel inst then stopGCPLoop env zone rest count
    else
      let ok := env.stopSucceeds zone inst.name
      let next := stopGCPLoop env zone rest (if ok then count + 1 else count)
      (⟨"stop", inst.name, zone, ok⟩ :: next.1, next.2)

/-- Zone loop of `stopGCPNonEssentialResources`: breaks once the count
is saturated; a failed per-zone instance listing is logged and skipped. -/
def stopGCPZones (env : GCPEnv) : List String → ℕ → List CloudCall × ℕ
  | [], count => ([], count)
  | zone :: rest, count =>
    if 5 ≤ count then ([], count)
    else
      match env.listInstances zone with
      | .error _ => stopGCPZones env rest count
      | .ok instances =>
        let inner := stopGCPLoop env zone instances count
        let next := stopGCPZones env rest inner.2
        (inner.1 ++ next.1, next.2)

/-- `cloud.stopGCPNonEssentialResources`: parse credentials, create the
compute client, list zones, then stop up to 5 running non-essential VMs
across the zones. -/
def stopGCPNonEssentialResources (env : GCPEnv) :
    List CloudCall × Option String :=
  match env.setupError with
  | some e => ([], some e)
  | none =>
    match env.zones with
    | .error e => ([], some ("failed to list zones: " ++ e))
    | .ok zones => ((stopGCPZones env zones 0).1, none)

/-- Substring containment, used to embed Go `strings.Contains`. -/
def containsSub (s pat : String) : Bool :=
  1 < (s.splitOn pat).length

/-- The instance size-level classifier inlined in
`terminateAWSOversizedInstances`. -/
def sizeLevel (t : String) : ℕ :=
  if containsSub t "nano" || containsSub t "micro" then 1
  else if containsSub t "small" then 2
  else if containsSub t "medium" then 3
  else if containsSub t "large" && !containsSub t "xlarge" then 4
  else if containsSub t "xlarge" && !containsSub t "2xlarge" then 5
  else if containsSub t "2xlarge" then 6
  else if containsSub t "4xlarge" then 7
  else if containsSub t "8xlarge" then 8
  else 9

/-- Inner loop of `terminateAWSOversizedInstances`: terminate a running
instance when its size level exceeds `maxSizeLevel`, unless it carries
the `Essential` tag; only successful terminations count toward the cap
of 5. -/
def terminateAWSLoop (env : AWSEnv) (maxSizeLevel : ℕ) :
    List Instance → ℕ → List CloudCall × ℕ
  | [], count => ([], count)
  | inst :: rest, count =>
    if 5 ≤ count then ([], count)
    else if sizeLevel inst.instanceType ≤ maxSizeLevel then
      terminateAWSLoop env maxSizeLevel rest count
    else if hasEssentialTag inst then
      terminateAWSLoop env maxSizeLevel rest count
    else
      let ok := env.terminateSucceeds inst.instanceId
      let next := terminateAWSLoop env maxSizeLevel rest
        (if ok then count + 1 else count)
      (⟨"terminate", inst.instanceId, "", ok⟩ :: next.1, next.2)

/-- Reservation loop of `terminateAWSOversizedInstances`. -/
def terminateAWSReservations (env : AWSEnv) (maxSizeLevel : ℕ) :
    List (List Instance) → ℕ → List CloudCall × ℕ
  | [], count => ([], count)
  | res :: rest, count =>
    let inner := terminateAWSLoop env maxSizeLevel res count
    let next := terminateAWSReservations env maxSizeLevel rest inner.2
    (inner.1 ++ next.1, next.2)

/-- `cloud.terminateAWSOversizedInstances`. -/
def terminateAWSOversizedInstances (env : AWSEnv) (maxSizeLevel : ℕ) :
    List CloudCall × Option String :=
  match env.sessionError with
  | some e => ([], some e)
  | none =>
    match env.describeInstances with
    | .error e => ([], some e)
    | .ok reservations =>
      ((terminateAWSReservations env maxSizeLevel reservations 0).1, none)

/-! ## Rule evaluation (`opa` package)

The worker consumes the contract
`EvaluatePolicy(policyName, input) → (allowed, result, err)`.
The input document merges the provider identity fields with the billing
snapshot; the result map is abstracted to the two keys the worker ever
reads (`allow` and `msg`). -/

/-- The billing snapshot returned by the `Fetch*Billing` collaborators.
`monthlySpend` is `none` when the map has no `float64` under the
`monthlySpend` key (the worker type-asserts before using it). -/
structure BillingData where
  monthlySpend : Option ℚ
  currency : String
deriving Repr, DecidableEq

/-- The evaluation input document built by `evaluatePolicy`: the
provider identity fields plus the merged billing snapshot. -/
structure OPAInput where
  account_id : String
  subscription_id : String
  project_id : String
  monthly_spend : ℚ
  provider_type : String
  billing : BillingData
deriving Repr, DecidableEq

/-- The evaluator result map, abstracted to the keys the worker reads:
`allow` and the optional violation message `msg`. -/
structure EvalResult where
  allow : Bool
  msg : Option String
deriving Repr, DecidableEq

namespace OpaStub

/-- `opa.Engine.EvaluatePolicy` of the stub engine: the body is
literally `return true, map[string]interface{}{"allow": true}, nil`
(commented in the source as simplified evaluation, always allow). -/
def EvaluatePolicy (policyName : String) (input : OPAInput) :
    Bool × EvalResult × Option String :=
  (true, { allow := true, msg := none }, none)

end OpaStub

namespace OpaRego

/-- The rego runtime behind the rego-backed engine, as an oracle:
`prepare` returns the compile error (if any) of preparing a query
against a module, and `evalBool` / `evalString` return the query value
(`none` when the rego document is undefined) or an evaluation error. -/
structure RegoRuntime where
  prepare : String → String → Option String
  evalBool : String → String → OPAInput → Except String (Option Bool)
  evalString : String → String → OPAInput → Except String (Option String)

def allowQuery : String := "data.finopsbridge.policies.allow"

def violationQuery : String := "data.finopsbridge.policies.violation"

def msgQuery : String := "data.finopsbridge.policies.msg"

/-- `opa.Engine.EvaluatePolicy` of the rego-backed engine.  `cache` is
the in-memory `policies` map (policy id → rego code) and `disk` the
`os.ReadFile` fallback.  A missing rule definition returns
`(true, {allow: true, msg: "policy not found"}, nil)`; a prepare or
evaluation failure returns `allowed = true` together with a non-nil
error; otherwise the `allow`, `violation` and `msg` documents are
queried in turn. -/
def EvaluatePolicy (rt : RegoRuntime) (cache : List (String × String))
    (disk : String → Option String) (policyName : String)
    (input : OPAInput) : Bool × EvalResult × Option String :=
  let code? := match cache.lookup policyName with
    | some c => some c
    | none => disk policyName
  match code? with
  | none => (true, { allow := true, msg := some "policy not found" }, none)
  | some code =>
    match rt.prepare allowQuery code with
    | some e =>
      (true, { allow := true, msg := none },
        some ("failed to prepare policy: " ++ e))
    | none =>
      match rt.evalBool allowQuery code input with
      | .error e =>
        (true, { allow := true, msg := none },
          some ("failed to evaluate policy: " ++ e))
      | .ok allowVal =>
        let allowed := allowVal.getD false
        let allowed :=
          match rt.prepare violationQuery code with
          | some _ => allowed
          | none =>
            match rt.evalBool violationQuery code input with
            | .ok (some true) => false
            | _ => allowed
        let msg :=
          if allowed then none
          else
            match rt.prepare msgQuery code with
            | some _ => none
            | none =>
              match rt.evalString msgQuery code input with
              | .ok (some m) => some m
              | _ => none
        (allowed, { allow := allowed, msg := msg }, none)

end OpaRego

/-! ## The enforcement worker (`worker` package)

The worker's external collaborators are gathered in `WorkerEnv`:
billing collection, the rule evaluator, the AWS environment used by the
remediation dispatch, and HTTP webhook delivery. -/

/-- The payload `formatWebhookPayload` builds, abstracted to the fields
every channel variant (slack / discord / teams / generic fallback)
embeds from the policy and the violation. -/
structure WebhookPayload where
  channel : String
  policyName : String
  severity : String
  cloudProvider : String
  status : String
  message : String
  violationId : String
deriving Repr, DecidableEq

/-- One webhook delivery attempt: the POSTed request and its outcome. -/
structure WebhookAttempt where
  url : String
  channel : String
  payload : WebhookPayload
  contentType : String
  success : Bool
deriving Repr, DecidableEq

/-- The worker's external collaborators. `httpPost url payload` is the
HTTP oracle: a transport error, or the response status code. -/
structure WorkerEnv where
  fetchBilling : CloudProvider → Except String BillingData
  opaEval : String → OPAInput → Bool × EvalResult × Option String
  aws : AWSEnv
  httpPost : String → WebhookPayload → Except String ℕ

/-- The observable side effects of one piece of worker execution:
evaluator invocations `(policy id, provider id)`, issued cloud
mutations, and webhook delivery attempts. -/
structure Trace where
  evals : List (String × String)
  cloudCalls : List CloudCall
  attempts : List WebhookAttempt
deriving Repr, DecidableEq

def Trace.empty : Trace := ⟨[], [], []⟩

def Trace.append (t u : Trace) : Trace :=
  ⟨t.evals ++ u.evals, t.cloudCalls ++ u.cloudCalls,
    t.attempts ++ u.attempts⟩

instance : Append Trace := ⟨Trace.append⟩

@[simp] theorem Trace.empty_append (t : Trace) :
    Trace.empty ++ t = t := by
  show Trace.append Trace.empty t = t
  cases t; simp [Trace.empty, Trace.append]

@[simp] theorem Trace.append_empty (t : Trace) :
    t ++ Trace.empty = t := by
  show Trace.append t Trace.empty = t
  cases t; simp [Trace.empty, Trace.append]

/-- `cloud.StopNonEssentialResources` as linked with the worker (the
3-argument variant): dispatch on the provider type; the AWS arm is the
real implementation, the azure and gcp arms are stubs returning nil,
and an unknown type falls through to nil. -/
def StopNonEssentialResources (env : WorkerEnv) (provider : CloudProvider) :
    List CloudCall × Option String :=
  if provider.type == "aws" then stopAWSNonEssentialResources env.aws
  else if provider.type == "azure" then ([], none)
  else if provider.type == "gcp" then ([], none)
  else ([], none)

/-- `cloud.TerminateOversizedInstances` as linked with the worker (the
3-argument variant): a stub whose body is `return nil` — no cloud
action is performed. -/
def TerminateOversizedInstances (env : WorkerEnv)
    (provider : CloudProvider) : List CloudCall × Option String :=
  ([], none)

/-- `cloud.StopIdleResources` as linked with the worker (the 3-argument
variant): a stub whose body is `return nil` — no cloud action is
performed. -/
def StopIdleResources (env : WorkerEnv) (provider : CloudProvider) :
    List CloudCall × Option String :=
  ([], none)

/-- The remediation action `remediate` dispatches to for a policy type
(the `switch policy.Type` arms other than the early-returning
`require_tags` one; a type outside the enumerated four leaves the
error nil without invoking anything). -/
def remAction (env : WorkerEnv) (policy : Policy)
    (provider : CloudProvider) : List CloudCall × Option String :=
  if policy.type == "max_spend" then StopNonEssentialResources env provider
  else if policy.type == "block_instance_type" then
    TerminateOversizedInstances env provider
  else if policy.type == "auto_stop_idle" then
    StopIdleResources env provider
  else ([], none)

/-- The `remediation` activity log entry appended on success. -/
def remediationLog (policy : Policy) (violation : PolicyViolation) :
    ActivityLog :=
  { organizationID := policy.organizationID
    type := "remediation"
    message := "Policy \x27" ++ policy.name ++ "\x27 violation remediated"
    metadata := "\x7b\"policyId\":\"" ++ policy.id ++ "\",\"violationId\":\""
      ++ violation.id ++ "\"\x7d" }

/-- `EnforcementWorker.remediate`: `require_tags` returns without
remediation; otherwise the mapped action runs once, a failure is logged
and left alone (the violation keeps its state, nothing retries), and on
success the violation is saved as `remediated` with the timestamp and a
`remediation` activity log entry is created. -/
def remediate (env : WorkerEnv) (now : ℕ) (db : DB) (policy : Policy)
    (provider : CloudProvider) (violation : PolicyViolation) :
    DB × List CloudCall :=
  if policy.type == "require_tags" then (db, [])
  else
    let act := remAction env policy provider
    match act.2 with
    | some _ => (db, act.1)
    | none =>
      let v' := { violation with
        status := "remediated", remediatedAt := some now }
      let vs := db.violations.map (fun w => if w.id == v'.id then v' else w)
      let logs := db.activityLogs ++ [remediationLog policy violation]
      ({ db with violations := vs, activityLogs := logs }, act.1)

/-- `EnforcementWorker.formatWebhookPayload`: each known channel kind
gets its rich format, anything else the generic fallback; every variant
embeds the policy name and the violation severity / provider / status /
message / id. -/
def formatWebhookPayload (webhookType : String) (policy : Policy)
    (violation : PolicyViolation) : WebhookPayload :=
  if webhookType == "slack" then
    { channel := "slack", policyName := policy.name
      severity := violation.severity
      cloudProvider := violation.cloudProvider, status := violation.status
      message := violation.message, violationId := violation.id }
  else if webhookType == "discord" then
    { channel := "discord", policyName := policy.name
      severity := violation.severity
      cloudProvider := violation.cloudProvider, status := violation.status
      message := violation.message, violationId := violation.id }
  else if webhookType == "teams" then
    { channel := "teams", policyName := policy.name
      severity := violation.severity
      cloudProvider := violation.cloudProvider, status := violation.status
      message := violation.message, violationId := violation.id }
  else
    { channel := "generic", policyName := policy.name
      severity := violation.severity
      cloudProvider := violation.cloudProvider, status := violation.status
      message := violation.message, violationId := violation.id }

/-- `EnforcementWorker.sendWebhookRequest`: POST with
`Content-Type: application/json`; non-nil error on transport failure or
on a status code outside 2xx. -/
def sendWebhookRequest (env : WorkerEnv) (url : String)
    (payload : WebhookPayload) : Option String :=
  match env.httpPost url payload with
  | .error e => some ("failed to send request: " ++ e)
  | .ok code =>
    if code < 200 || 300 ≤ code then
      some ("webhook returned status code: " ++ toString code)
    else none

/-- `EnforcementWorker.sendWebhooks`: load the enabled webhooks of the
organization and the violation's policy, then attempt a delivery for
every webhook in turn — a failed delivery is only logged and the loop
continues.  Returns the attempts; the database is not modified. -/
def sendWebhooks (env : WorkerEnv) (db : DB) (orgID : String)
    (violation : PolicyViolation) : List WebhookAttempt :=
  let webhooks := db.webhooks.filter
    (fun w => w.organizationID == orgID && w.enabled)
  match db.policies.find? (fun p => p.id == violation.policyID) with
  | none => []
  | some policy =>
    webhooks.map (fun wh =>
      let payload := formatWebhookPayload wh.type policy violation
      let err := sendWebhookRequest env wh.url payload
      { url := wh.url, channel := wh.type, payload := payload
        contentType := "application/json", success := err.isNone })

/-- The violation row `handleViolation` creates (severity fixed `high`,
status `pending`, the provider row as the resource).  The id stands for
the fresh primary key the store assigns on create. -/
def mkViolation (db : DB) (policy : Policy) (provider : CloudProvider)
    (message : String) : PolicyViolation :=
  { id := "violation-" ++ toString db.violations.length
    policyID := policy.id
    resourceID := provider.id
    resourceType := "cloud_provider"
    cloudProvider := provider.type
    message := message
    severity := "high"
    status := "pending"
    remediatedAt := none }

/-- The `policy_violation` activity log entry created on detection. -/
def violationLog (policy : Policy) (violation : PolicyViolation)
    (message : String) : ActivityLog :=
  { organizationID := policy.organizationID
    type := "policy_violation"
    message := "Policy \x27" ++ policy.name ++ "\x27 violation: " ++ message
    metadata := "\x7b\"policyId\":\"" ++ policy.id ++ "\",\"violationId\":\""
      ++ violation.id ++ "\"\x7d" }

/-- `EnforcementWorker.handleViolation`: look for an existing pending
violation keyed by the policy id; when one exists, return without any
effect.  Otherwise create the violation and the `policy_violation`
activity log, attempt remediation, and send the webhooks with the local
(pre-remediation) copy of the violation. -/
def handleViolation (env : WorkerEnv) (now : ℕ) (db : DB)
    (policy : Policy) (provider : CloudProvider) (result : EvalResult) :
    DB × Trace :=
  let message := result.msg.getD "Policy violation detected"
  match db.violations.find?
      (fun v => v.policyID == policy.id && v.status == "pending") with
  | some _ => (db, Trace.empty)
  | none =>
    let violation := mkViolation db policy provider message
    let db1 := { db with violations := db.violations ++ [violation] }
    let db2 := { db1 with activityLogs :=
      db1.activityLogs ++ [violationLog policy violation message] }
    let rem := remediate env now db2 policy provider violation
    let attempts := sendWebhooks env rem.1 policy.organizationID violation
    (rem.1, ⟨[], rem.2, attempts⟩)

/-- The evaluation input document of `evaluatePolicy` (provider identity
fields merged with the billing snapshot). -/
def mkOPAInput (provider : CloudProvider) (billing : BillingData) :
    OPAInput :=
  { account_id := provider.accountID
    subscription_id := provider.subscriptionID
    project_id := provider.projectID
    monthly_spend := provider.monthlySpend
    provider_type := provider.type
    billing := billing }

/-- `EnforcementWorker.evaluatePolicy`: build the input, invoke the
evaluator; an evaluator error is logged and the policy is skipped;
`allowed = true` is a non-violation; otherwise the violation is
handled. -/
def evaluatePolicy (env : WorkerEnv) (now : ℕ) (db : DB)
    (policy : Policy) (provider : CloudProvider)
    (billing : BillingData) : DB × Trace :=
  let input := mkOPAInput provider billing
  let out := env.opaEval policy.id input
  let tr : Trace := ⟨[(policy.id, provider.id)], [], []⟩
  match out.2.2 with
  | some _ => (db, tr)
  | none =>
    if out.1 then (db, tr)
    else
      let hv := handleViolation env now db policy provider out.2.1
      (hv.1, tr ++ hv.2)

/-- The policy loop of `processProvider`: policies of another
organization are skipped, the rest are evaluated in order. -/
def evalPolicies (env : WorkerEnv) (now : ℕ) (provider : CloudProvider)
    (billing : BillingData) : DB → List Policy → DB × Trace
  | db, [] => (db, Trace.empty)
  | db, policy :: rest =>
    if policy.organizationID == provider.organizationID then
      let one := evaluatePolicy env now db policy provider billing
      let more := evalPolicies env now provider billing one.1 rest
      (more.1, one.2 ++ more.2)
    else evalPolicies env now provider billing db rest

/-- `EnforcementWorker.processProvider`: an unknown provider type
returns at once; a billing-fetch error is logged and the whole account
is skipped for the tick (spend untouched, no policy evaluated); on
success the provider's monthly spend is refreshed (when the snapshot
carries one) and each policy of the provider's organization is
evaluated against the merged input. -/
def processProvider (env : WorkerEnv) (now : ℕ) (db : DB)
    (policies : List Policy) (provider : CloudProvider) : DB × Trace :=
  if !(provider.type == "aws" || provider.type == "azure"
      || provider.type == "gcp" || provider.type == "oci"
      || provider.type == "ibm") then (db, Trace.empty)
  else
    match env.fetchBilling provider with
    | .error _ => (db, Trace.empty)
    | .ok billing =>
      match billing.monthlySpend with
      | some spend =>
        let p := { provider with monthlySpend := spend }
        let ps := db.providers.map (fun q => if q.id == p.id then p else q)
        evalPolicies env now p billing { db with providers := ps } policies
      | none => evalPolicies env now provider billing db policies

/-- The provider loop of `EnforcementWorker.run`. -/
def processProviders (env : WorkerEnv) (now : ℕ) (policies : List Policy) :
    DB → List CloudProvider → DB × Trace
  | db, [] => (db, Trace.empty)
  | db, p :: rest =>
    let one := processProvider env now db policies p
    let more := processProviders env now policies one.1 rest
    (more.1, one.2 ++ more.2)

/-- `EnforcementWorker.run`, one tick: load the enabled policies and the
connected providers, then process each provider. -/
def runTick (env : WorkerEnv) (now : ℕ) (db : DB) : DB × Trace :=
  let policies := db.policies.filter (fun p => p.enabled)
  let providers := db.providers.filter (fun p => p.status == "connected")
  processProviders env now policies db providers

/-! ## Concrete end-to-end scenario

The §8 end-to-end example: a max-spend policy with threshold $10,000
enabled for organization `org-O`, and a connected AWS account of that
organization whose billing snapshot reports a monthly spend of
$12,000. -/

def policyC1 : Policy :=
  { id := "policy-1", organizationID := "org-O", name := "Monthly Budget Cap"
    description := "max spend", type := "max_spend", enabled := true
    rego := "package finopsbridge.policies.max_spend"
    config := "\x7b\"threshold\":10000\x7d" }

def providerC1 : CloudProvider :=
  { id := "provider-A", organizationID := "org-O", name := "Account A"
    type := "aws", accountID := "123456789012", subscriptionID := ""
    projectID := "", status := "connected", monthlySpend := 0
    credentials := "" }

def dbC1 : DB :=
  { policies := [policyC1], providers := [providerC1], violations := []
    activityLogs := [], webhooks := [] }

def billingC1 : BillingData := { monthlySpend := some 12000, currency := "USD" }

def awsEnvC1 : AWSEnv :=
  { sessionError := none, describeInstances := .ok []
    stopSucceeds := fun _ => true, terminateSucceeds := fun _ => true }

def envC1 : WorkerEnv :=
  { fetchBilling := fun _ => .ok billingC1
    opaEval := OpaStub.EvaluatePolicy
    aws := awsEnvC1
    httpPost := fun _ _ => .ok 200 }

/-- C1: the claim says that on this scenario `Evaluate` returns
`violated = true` with a message citing both figures, and the worker
creates a pending violation.  The code does neither: the stub
`Engine.EvaluatePolicy` returns `allowed = true` unconditionally, so
the tick refreshes the stored spend to $12,000 and then detects no
violation — no violation row, no cloud call, no webhook attempt. -/
theorem maxSpend_endToEnd_code_bug :
    OpaStub.EvaluatePolicy policyC1.id
        (mkOPAInput { providerC1 with monthlySpend := 12000 } billingC1)
      = (true, { allow := true, msg := none }, none)
    ∧ (runTick envC1 0 dbC1).1.violations = []
    ∧ (runTick envC1 0 dbC1).1.activityLogs = []
    ∧ (runTick envC1 0 dbC1).2.cloudCalls = []
    ∧ (runTick envC1 0 dbC1).2.attempts = []
    ∧ (runTick envC1 0 dbC1).1.providers
        = [{ providerC1 with monthlySpend := 12000 }] := by
  refine ⟨rfl, ?_, ?_, ?_, ?_, ?_⟩ <;> rfl

/-- C10: for a violation of a policy of type `block_instance_type` or
`auto_stop_idle`, or of any type outside the enumerated four, the
remediation call performs no cloud action and returns nil (the mapped
functions are `return nil` stubs; an unrecognized type falls through
the switch), so the violation is immediately marked remediated with a
timestamp although nothing was corrected. -/
theorem stub_remediation_marks_remediated (env : WorkerEnv) (now : ℕ)
    (db : DB) (policy : Policy) (provider : CloudProvider)
    (violation : PolicyViolation)
    (htype : policy.type = "block_instance_type"
      ∨ policy.type = "auto_stop_idle"
      ∨ (policy.type ≠ "max_spend" ∧ policy.type ≠ "block_instance_type"
         ∧ policy.type ≠ "auto_stop_idle" ∧ policy.type ≠ "require_tags"))
    (hmem : violation ∈ db.violations) :
    TerminateOversizedInstances env provider = ([], none)
    ∧ StopIdleResources env provider = ([], none)
    ∧ (remediate env now db policy provider violation).2 = []
    ∧ ∃ v' ∈ (remediate env now db policy provider violation).1.violations,
        v'.id = violation.id ∧ v'.status = "remediated"
        ∧ v'.remediatedAt = some now := by
  have hact : remAction env policy provider = ([], none) := by
    rcases htype with h | h | ⟨h1, h2, h3, h4⟩ <;>
      simp [remAction, TerminateOversizedInstances, StopIdleResources, *]
  have hreq : (policy.type == "require_tags") = false := by
    rcases htype with h | h | ⟨h1, h2, h3, h4⟩ <;> simp [*]
  refine ⟨rfl, rfl, ?_, ?_⟩
  · simp [remediate, hreq, hact]
  · simp only [remediate, hreq, hact, Bool.false_eq_true, if_false]
    refine ⟨_, List.mem_map_of_mem _ hmem, ?_, ?_, ?_⟩ <;> simp

theorem stub_remediation_marks_remediated_witness :
    ∃ v' ∈ (remediate envC1 7 { dbC1 with violations :=
        [mkViolation dbC1 { policyC1 with type := "auto_stop_idle" }
          providerC1 "idle"] }
      { policyC1 with type := "auto_stop_idle" } providerC1
      (mkViolation dbC1 { policyC1 with type := "auto_stop_idle" }
        providerC1 "idle")).1.violations,
      v'.id = (mkViolation dbC1 { policyC1 with type := "auto_stop_idle" }
        providerC1 "idle").id ∧ v'.status = "remediated"
      ∧ v'.remediatedAt = some 7 :=
  (stub_remediation_marks_remediated envC1 7 _ _ providerC1 _
    (Or.inr (Or.inl rfl)) (by simp)).2.2.2

/-- C6: lifecycle of a newly created violation under remediation, for
the policy types that map to a remediation action.  On success the
violation is saved as `remediated` with the timestamp and a
`remediation` activity log entry is appended; on failure the database
is left untouched (the violation stays pending with a null
remediated-at, no remediation log), and in both cases the action was
invoked exactly once (the issued calls are those of one invocation —
no retry). -/
theorem remediate_lifecycle (env : WorkerEnv) (now : ℕ) (db : DB)
    (policy : Policy) (provider : CloudProvider)
    (violation : PolicyViolation)
    (htype : policy.type = "max_spend"
      ∨ policy.type = "block_instance_type"
      ∨ policy.type = "auto_stop_idle")
    (hmem : violation ∈ db.violations) :
    ((remAction env policy provider).2 = none →
      (∃ v' ∈ (remediate env now db policy provider violation).1.violations,
          v'.id = violation.id ∧ v'.status = "remediated"
          ∧ v'.remediatedAt = some now)
      ∧ (remediate env now db policy provider violation).1.activityLogs
          = db.activityLogs ++ [remediationLog policy violation]
      ∧ (remediate env now db policy provider violation).2
          = (remAction env policy provider).1)
    ∧ (∀ e, (remAction env policy provider).2 = some e →
      (remediate env now db policy provider violation).1 = db
      ∧ (remediate env now db policy provider violation).2
          = (remAction env policy provider).1) := by
  have hreq : (policy.type == "require_tags") = false := by
    rcases htype with h | h | h <;> simp [*]
  constructor
  · intro herr
    refine ⟨?_, ?_, ?_⟩
    · simp only [remediate, hreq, Bool.false_eq_true, if_false, herr]
      refine ⟨_, List.mem_map_of_mem _ hmem, ?_, ?_, ?_⟩ <;> simp
    · simp [remediate, hreq, herr]
    · simp [remediate, hreq, herr]
  · intro e herr
    constructor <;> simp [remediate, hreq, herr]

theorem remediate_lifecycle_witness :
    ((remAction envC1 policyC1 providerC1).2 = none
      ∧ ∃ v' ∈ (remediate envC1 3 { dbC1 with violations :=
            [mkViolation dbC1 policyC1 providerC1 "over budget"] }
          policyC1 providerC1
          (mkViolation dbC1 policyC1 providerC1 "over budget")).1.violations,
        v'.id = (mkViolation dbC1 policyC1 providerC1 "over budget").id
        ∧ v'.status = "remediated" ∧ v'.remediatedAt = some 3) := by
  have h := (remediate_lifecycle envC1 3 { dbC1 with violations :=
      [mkViolation dbC1 policyC1 providerC1 "over budget"] }
    policyC1 providerC1 (mkViolation dbC1 policyC1 providerC1 "over budget")
    (Or.inl rfl) (by simp)).1 (by decide)
  exact ⟨by decide, h.1⟩

/-- Status field of every webhook payload variant is the violation's
status field. -/
theorem formatWebhookPayload_status (t : String) (p : Policy)
    (v : PolicyViolation) :
    (formatWebhookPayload t p v).status = v.status := by
  unfold formatWebhookPayload
  repeat' split
  all_goals rfl

/-- Every attempt produced by `sendWebhooks` carries the status of the
violation value it was handed. -/
theorem sendWebhooks_payload_status (env : WorkerEnv) (db : DB)
    (orgID : String) (v : PolicyViolation) (a : WebhookAttempt)
    (ha : a ∈ sendWebhooks env db orgID v) : a.payload.status = v.status := by
  unfold sendWebhooks at ha
  match hfind : db.policies.find? (fun p => p.id == v.policyID) with
  | none => rw [hfind] at ha; simp at ha
  | some policy =>
    rw [hfind] at ha
    simp only [List.mem_map, List.mem_filter] at ha
    obtain ⟨wh, _, rfl⟩ := ha
    simpa using formatWebhookPayload_status wh.type policy v

/-- C9: `handleViolation` hands `sendWebhooks` its local,
pre-remediation copy of the violation (and `remediate` mutates only its
own by-value copy), so every webhook payload reports status `pending`
even when the stored violation has already been transitioned to
`remediated`. -/
theorem handleViolation_payload_pending (env : WorkerEnv) (now : ℕ)
    (db : DB) (policy : Policy) (provider : CloudProvider)
    (result : EvalResult) (a : WebhookAttempt)
    (ha : a ∈ (handleViolation env now db policy provider result).2.attempts) :
    a.payload.status = "pending" := by
  unfold handleViolation at ha
  match hfind : db.violations.find?
      (fun v => v.policyID == policy.id && v.status == "pending") with
  | some v => rw [hfind] at ha; simp [Trace.empty] at ha
  | none =>
    rw [hfind] at ha
    simp only [] at ha
    exact sendWebhooks_payload_status _ _ _ _ _ ha

def webhookC9 : Webhook :=
  { id := "wh-1", organizationID := "org-O", type := "slack"
    url := "https://hooks.example/1", enabled := true }

def dbC9 : DB := { dbC1 with webhooks := [webhookC9] }

def attemptC9 : WebhookAttempt :=
  { url := "https://hooks.example/1", channel := "slack"
    payload := formatWebhookPayload "slack" policyC1
      (mkViolation dbC9 policyC1 providerC1 "breach")
    contentType := "application/json", success := true }

theorem handleViolation_payload_pending_witness :
    attemptC9.payload.status = "pending" :=
  handleViolation_payload_pending envC1 0 dbC9 policyC1 providerC1
    { allow := false, msg := some "breach" } attemptC9 (by decide)

/-! ## Exclusion of `Essential` resources (claim C5) -/

theorem stopAWSLoop_calls (env : AWSEnv) (l : List Instance) (count : ℕ)
    (c : CloudCall) (hc : c ∈ (stopAWSLoop env l count).1) :
    ∃ inst ∈ l, inst.instanceId = c.resourceId
      ∧ hasEssentialTag inst = false := by
  induction l generalizing count with
  | nil => simp [stopAWSLoop] at hc
  | cons inst rest ih =>
    rw [stopAWSLoop] at hc
    split at hc
    · simp at hc
    · split at hc
      · next hess =>
        obtain ⟨i, hi, h⟩ := ih _ hc
        exact ⟨i, List.mem_cons_of_mem _ hi, h⟩
      · next hess =>
        simp only [List.mem_cons] at hc
        cases hc with
        | inl h =>
          subst h
          exact ⟨inst, List.mem_cons_self .., rfl, by simpa using hess⟩
        | inr h =>
          obtain ⟨i, hi, hh⟩ := ih _ h
          exact ⟨i, List.mem_cons_of_mem _ hi, hh⟩

theorem stopAWSReservations_calls (env : AWSEnv)
    (rs : List (List Instance)) (count : ℕ) (c : CloudCall)
    (hc : c ∈ (stopAWSReservations env rs count).1) :
    ∃ r ∈ rs, ∃ inst ∈ r, inst.instanceId = c.resourceId
      ∧ hasEssentialTag inst = false := by
  induction rs generalizing count with
  | nil => simp [stopAWSReservations] at hc
  | cons res rest ih =>
    rw [stopAWSReservations] at hc
    simp only [List.mem_append] at hc
    cases hc with
    | inl h =>
      obtain ⟨i, hi, hh⟩ := stopAWSLoop_calls env res count c h
      exact ⟨res, List.mem_cons_self .., i, hi, hh⟩
    | inr h =>
      obtain ⟨r, hr, hrest⟩ := ih _ h
      exact ⟨r, List.mem_cons_of_mem _ hr, hrest⟩

theorem terminateAWSLoop_calls (env : AWSEnv) (maxL : ℕ)
    (l : List Instance) (count : ℕ) (c : CloudCall)
    (hc : c ∈ (terminateAWSLoop env maxL l count).1) :
    ∃ inst ∈ l, inst.instanceId = c.resourceId
      ∧ hasEssentialTag inst = false := by
  induction l generalizing count with
  | nil => simp [terminateAWSLoop] at hc
  | cons inst rest ih =>
    rw [terminateAWSLoop] at hc
    split at hc
    · simp at hc
    · split at hc
      · obtain ⟨i, hi, h⟩ := ih _ hc
        exact ⟨i, List.mem_cons_of_mem _ hi, h⟩
      · split at hc
        · next hess =>
          obtain ⟨i, hi, h⟩ := ih _ hc
          exact ⟨i, List.mem_cons_of_mem _ hi, h⟩
        · next hess =>
          simp only [List.mem_cons] at hc
          cases hc with
          | inl h =>
            subst h
            exact ⟨inst, List.mem_cons_self .., rfl, by simpa using hess⟩
          | inr h =>
            obtain ⟨i, hi, hh⟩ := ih _ h
            exact ⟨i, List.mem_cons_of_mem _ hi, hh⟩

theorem terminateAWSReservations_calls (env : AWSEnv) (maxL : ℕ)
    (rs : List (List Instance)) (count : ℕ) (c : CloudCall)
    (hc : c ∈ (terminateAWSReservations env maxL rs count).1) :
    ∃ r ∈ rs, ∃ inst ∈ r, inst.instanceId = c.resourceId
      ∧ hasEssentialTag inst = false := by
  induction rs generalizing count with
  | nil => simp [terminateAWSReservations] at hc
  | cons res rest ih =>
    rw [terminateAWSReservations] at hc
    simp only [List.mem_append] at hc
    cases hc with
    | inl h =>
      obtain ⟨i, hi, hh⟩ := terminateAWSLoop_calls env maxL res count c h
      exact ⟨res, List.mem_cons_self .., i, hi, hh⟩
    | inr h =>
      obtain ⟨r, hr, hrest⟩ := ih _ h
      exact ⟨r, List.mem_cons_of_mem _ hr, hrest⟩

theorem stopGCPLoop_calls (env : GCPEnv) (zone : String)
    (l : List GCPInstance) (count : ℕ) (c : CloudCall)
    (hc : c ∈ (stopGCPLoop env zone l count).1) :
    ∃ inst ∈ l, inst.name = c.resourceId
      ∧ hasEssentialLabel inst = false := by
  induction l generalizing count with
  | nil => simp [stopGCPLoop] at hc
  | cons inst rest ih =>
    rw [stopGCPLoop] at hc
    split at hc
    · simp at hc
    · split at hc
      · next hess =>
        obtain ⟨i, hi, h⟩ := ih _ hc
        exact ⟨i, List.mem_cons_of_mem _ hi, h⟩
      · next hess =>
        simp only [List.mem_cons] at hc
        cases hc with
        | inl h =>
          subst h
          exact ⟨inst, List.mem_cons_self .., rfl, by simpa using hess⟩
        | inr h =>
          obtain ⟨i, hi, hh⟩ := ih _ h
          exact ⟨i, List.mem_cons_of_mem _ hi, hh⟩

theorem stopGCPZones_calls (env : GCPEnv) (zs : List String) (count : ℕ)
    (c : CloudCall) (hc : c ∈ (stopGCPZones env zs count).1) :
    ∃ z ∈ zs, ∃ l, env.listInstances z = .ok l
      ∧ ∃ inst ∈ l, inst.name = c.resourceId
        ∧ hasEssentialLabel inst = false := by
  induction zs generalizing count with
  | nil => simp [stopGCPZones] at hc
  | cons zone rest ih =>
    rw [stopGCPZones] at hc
    split at hc
    · simp at hc
    · split at hc
      · obtain ⟨z, hz, hrest⟩ := ih _ hc
        exact ⟨z, List.mem_cons_of_mem _ hz, hrest⟩
      · next insts hlist =>
        simp only [List.mem_append] at hc
        cases hc with
        | inl h =>
          obtain ⟨i, hi, hh⟩ := stopGCPLoop_calls env zone insts count c h
          exact ⟨zone, List.mem_cons_self .., insts, hlist, i, hi, hh⟩
        | inr h =>
          obtain ⟨z, hz, hrest⟩ := ih _ h
          exact ⟨z, List.mem_cons_of_mem _ hz, hrest⟩

/-- C5: every stop or terminate call these remediation actions issue
targets an instance that was listed by the provider and does not carry
the `Essential` marker (the `Essential=true` tag on AWS, the
`essential=true` label on GCP) — so a resource carrying the marker is
never remediated, however severely it breaches the policy. -/
theorem essential_never_remediated :
    (∀ (env : AWSEnv) (res : List (List Instance)) (c : CloudCall),
      env.describeInstances = .ok res →
      c ∈ (stopAWSNonEssentialResources env).1 →
      ∃ r ∈ res, ∃ inst ∈ r, inst.instanceId = c.resourceId
        ∧ hasEssentialTag inst = false)
    ∧ (∀ (env : AWSEnv) (maxL : ℕ) (res : List (List Instance))
        (c : CloudCall),
      env.describeInstances = .ok res →
      c ∈ (terminateAWSOversizedInstances env maxL).1 →
      ∃ r ∈ res, ∃ inst ∈ r, inst.instanceId = c.resourceId
        ∧ hasEssentialTag inst = false)
    ∧ (∀ (env : GCPEnv) (zs : List String) (c : CloudCall),
      env.zones = .ok zs →
      c ∈ (stopGCPNonEssentialResources env).1 →
      ∃ z ∈ zs, ∃ l, env.listInstances z = .ok l
        ∧ ∃ inst ∈ l, inst.name = c.resourceId
          ∧ hasEssentialLabel inst = false) := by
  refine ⟨?_, ?_, ?_⟩
  · intro env res c hres hc
    unfold stopAWSNonEssentialResources at hc
    match hs : env.sessionError with
    | some e => rw [hs] at hc; simp at hc
    | none =>
      rw [hs, hres] at hc
      exact stopAWSReservations_calls env res 0 c hc
  · intro env maxL res c hres hc
    unfold terminateAWSOversizedInstances at hc
    match hs : env.sessionError with
    | some e => rw [hs] at hc; simp at hc
    | none =>
      rw [hs, hres] at hc
      exact terminateAWSReservations_calls env maxL res 0 c hc
  · intro env zs c hzs hc
    unfold stopGCPNonEssentialResources at hc
    match hs : env.setupError with
    | some e => rw [hs] at hc; simp at hc
    | none =>
      rw [hs, hzs] at hc
      exact stopGCPZones_calls env zs 0 c hc

def essentialInstance : Instance :=
  { instanceId := "i-essential", instanceType := "m5.2xlarge"
    tags := [("Essential", "true")] }

def plainInstance : Instance :=
  { instanceId := "i-plain", instanceType := "m5.2xlarge", tags := [] }

def awsEnvC5 : AWSEnv :=
  { sessionError := none
    describeInstances := .ok [[essentialInstance, plainInstance]]
    stopSucceeds := fun _ => true, terminateSucceeds := fun _ => true }

theorem essential_never_remediated_witness :
    ∃ r ∈ [[essentialInstance, plainInstance]], ∃ inst ∈ r,
      inst.instanceId = "i-plain" ∧ hasEssentialTag inst = false := by
  have h := essential_never_remediated.1 awsEnvC5
    [[essentialInstance, plainInstance]]
    ⟨"stop", "i-plain", "", true⟩ rfl (by decide)
  simpa using h

/-! ## The blast-radius cap (claim C4)

In both loops the `count` guarded by the cap is incremented only when
the stop API call succeeds, so the cap bounds the number of successful
stops; issued attempts are unbounded when the API keeps failing. -/

theorem stopAWSLoop_count (env : AWSEnv) (l : List Instance) (count : ℕ) :
    (stopAWSLoop env l count).2 = count +
      ((stopAWSLoop env l count).1.filter (fun c => c.success)).length := by
  induction l generalizing count with
  | nil => simp [stopAWSLoop]
  | cons inst rest ih =>
    rw [stopAWSLoop]
    split
    · simp
    · split
      · exact ih count
      · cases hok : env.stopSucceeds inst.instanceId <;>
          simp [hok, ih, List.filter_cons] <;> omega

theorem stopAWSLoop_le5 (env : AWSEnv) (l : List Instance) (count : ℕ)
    (h : count ≤ 5) : (stopAWSLoop env l count).2 ≤ 5 := by
  induction l generalizing count with
  | nil => simpa [stopAWSLoop]
  | cons inst rest ih =>
    rw [stopAWSLoop]
    split
    · next h5 => simpa using h
    · next h5 =>
      split
      · exact ih count h
      · apply ih
        split <;> omega

theorem stopAWSReservations_count (env : AWSEnv)
    (rs : List (List Instance)) (count : ℕ) :
    (stopAWSReservations env rs count).2 = count +
      ((stopAWSReservations env rs count).1.filter
        (fun c => c.success)).length := by
  induction rs generalizing count with
  | nil => simp [stopAWSReservations]
  | cons res rest ih =>
    rw [stopAWSReservations]
    simp only [List.filter_append, List.length_append]
    rw [ih, stopAWSLoop_count env res count]
    omega

theorem stopAWSReservations_le5 (env : AWSEnv)
    (rs : List (List Instance)) (count : ℕ) (h : count ≤ 5) :
    (stopAWSReservations env rs count).2 ≤ 5 := by
  induction rs generalizing count with
  | nil => simpa [stopAWSReservations]
  | cons res rest ih =>
    rw [stopAWSReservations]
    exact ih _ (stopAWSLoop_le5 env res count h)

theorem stopGCPLoop_count (env : GCPEnv) (zone : String)
    (l : List GCPInstance) (count : ℕ) :
    (stopGCPLoop env zone l count).2 = count +
      ((stopGCPLoop env zone l count).1.filter
        (fun c => c.success)).length := by
  induction l generalizing count with
  | nil => simp [stopGCPLoop]
  | cons inst rest ih =>
    rw [stopGCPLoop]
    split
    · simp
    · split
      · exact ih count
      · cases hok : env.stopSucceeds zone inst.name <;>
          simp [hok, ih, List.filter_cons] <;> omega

theorem stopGCPLoop_le5 (env : GCPEnv) (zone : String)
    (l : List GCPInstance) (count : ℕ) (h : count ≤ 5) :
    (stopGCPLoop env zone l count).2 ≤ 5 := by
  induction l generalizing count with
  | nil => simpa [stopGCPLoop]
  | cons inst rest ih =>
    rw [stopGCPLoop]
    split
    · simpa using h
    · next h5 =>
      split
      · exact ih count h
      · apply ih
        split <;> omega

theorem stopGCPZones_count (env : GCPEnv) (zs : List String) (count : ℕ) :
    (stopGCPZones env zs count).2 = count +
      ((stopGCPZones env zs count).1.filter (fun c => c.success)).length := by
  induction zs generalizing count with
  | nil => simp [stopGCPZones]
  | cons zone rest ih =>
    rw [stopGCPZones]
    split
    · simp
    · split
      · exact ih count
      · next insts hlist =>
        simp only [List.filter_append, List.length_append]
        rw [ih, stopGCPLoop_count env zone insts count]
        omega

theorem stopGCPZones_le5 (env : GCPEnv) (zs : List String) (count : ℕ)
    (h : count ≤ 5) : (stopGCPZones env zs count).2 ≤ 5 := by
  induction zs generalizing count with
  | nil => simpa [stopGCPZones]
  | cons zone rest ih =>
    rw [stopGCPZones]
    split
    · simpa using h
    · split
      · exact ih count h
      · exact ih _ (stopGCPLoop_le5 env zone _ count h)

def c4Instances : List Instance :=
  (List.range 10).map (fun n => ⟨"i-" ++ toString n, "m5.large", []⟩)

def c4Env : AWSEnv :=
  { sessionError := none, describeInstances := .ok [c4Instances]
    stopSucceeds := fun _ => false, terminateSucceeds := fun _ => false }

/-- C4 counterexample: with 10 eligible running non-essential instances
and `StopInstances` reporting an error for every attempt, a single
invocation of the stop-non-essential action issues 10 stop operations —
the claim that at most 5 are issued fails, because only *successful*
stops count toward the cap. -/
theorem remediation_cap_counterexample :
    (stopAWSNonEssentialResources c4Env).1.length = 10
    ∧ ¬ (stopAWSNonEssentialResources c4Env).1.length ≤ 5 := by
  refine ⟨by decide, by decide⟩

/-- C4 (amended): a single invocation of the stop-non-essential action
(AWS or GCP variant) successfully stops at most 5 resources, and when
every issued stop succeeds — in particular when 10 or more eligible
resources breach and the API accepts the stops — at most 5 stop
operations are issued in total. -/
theorem remediation_cap_amended :
    (∀ env : AWSEnv,
      ((stopAWSNonEssentialResources env).1.filter
        (fun c => c.success)).length ≤ 5)
    ∧ (∀ env : AWSEnv,
      (∀ c ∈ (stopAWSNonEssentialResources env).1, c.success = true) →
      (stopAWSNonEssentialResources env).1.length ≤ 5)
    ∧ (∀ env : GCPEnv,
      ((stopGCPNonEssentialResources env).1.filter
        (fun c => c.success)).length ≤ 5)
    ∧ (∀ env : GCPEnv,
      (∀ c ∈ (stopGCPNonEssentialResources env).1, c.success = true) →
      (stopGCPNonEssentialResources env).1.length ≤ 5) := by
  have haws : ∀ env : AWSEnv,
      ((stopAWSNonEssentialResources env).1.filter
        (fun c => c.success)).length ≤ 5 := by
    intro env
    unfold stopAWSNonEssentialResources
    match hs : env.sessionError with
    | some e => simp
    | none =>
      match hd : env.describeInstances with
      | .error e => simp
      | .ok res =>
        simp only
        have hcount := stopAWSReservations_count env res 0
        have hle := stopAWSReservations_le5 env res 0 (by omega)
        omega
  have hgcp : ∀ env : GCPEnv,
      ((stopGCPNonEssentialResources env).1.filter
        (fun c => c.success)).length ≤ 5 := by
    intro env
    unfold stopGCPNonEssentialResources
    match hs : env.setupError with
    | some e => simp
    | none =>
      match hd : env.zones with
      | .error e => simp
      | .ok zs =>
        simp only
        have hcount := stopGCPZones_count env zs 0
        have hle := stopGCPZones_le5 env zs 0 (by omega)
        omega
  refine ⟨haws, ?_, hgcp, ?_⟩
  · intro env hall
    have := haws env
    rwa [List.filter_eq_self.mpr hall] at this
  · intro env hall
    have := hgcp env
    rwa [List.filter_eq_self.mpr hall] at this

def c4EnvAllOk : AWSEnv :=
  { sessionError := none, describeInstances := .ok [c4Instances]
    stopSucceeds := fun _ => true, terminateSucceeds := fun _ => true }

theorem remediation_cap_amended_witness :
    (stopAWSNonEssentialResources c4EnvAllOk).1.length ≤ 5 :=
  remediation_cap_amended.2.1 c4EnvAllOk (by decide)

/-! ## Per-account isolation of billing failures (claim C3) -/

theorem processProvider_fetch_fail (env : WorkerEnv) (now : ℕ) (db : DB)
    (policies : List Policy) (pFail : CloudProvider) (e : String)
    (h : env.fetchBilling pFail = .error e) :
    processProvider env now db policies pFail = (db, Trace.empty) := by
  unfold processProvider
  split
  · rfl
  · rw [h]

/-- C3: a billing-fetch failure is isolated to its account.  The
failing account's processing changes nothing (its stored spend is
untouched and no policy is evaluated for it — the trace is empty), and
the provider loop of the tick behaves exactly as if the failing account
were absent, so every other account is still processed and can still
produce violations. -/
theorem billing_failure_isolated (env : WorkerEnv) (now : ℕ)
    (policies : List Policy) (db : DB)
    (pre post : List CloudProvider) (pFail : CloudProvider) (e : String)
    (h : env.fetchBilling pFail = .error e) :
    processProviders env now policies db (pre ++ pFail :: post)
      = processProviders env now policies db (pre ++ post)
    ∧ processProvider env now db policies pFail = (db, Trace.empty) := by
  refine ⟨?_, processProvider_fetch_fail env now db policies pFail e h⟩
  induction pre generalizing db with
  | nil =>
    rw [List.nil_append, List.nil_append, processProviders,
      processProvider_fetch_fail env now db policies pFail e h]
    simp
  | cons p rest ih =>
    rw [List.cons_append, List.cons_append, processProviders,
      processProviders, ih]

def providerC3 : CloudProvider := { providerC1 with id := "provider-B" }

def flakyBilling (p : CloudProvider) : Except String BillingData :=
  if p.id == "provider-B" then .error "billing API down" else .ok billingC1

def envC3 : WorkerEnv := { envC1 with fetchBilling := flakyBilling }

theorem billing_failure_isolated_witness :
    processProviders envC3 0 [policyC1] dbC1 [providerC1, providerC3]
      = processProviders envC3 0 [policyC1] dbC1 [providerC1]
    ∧ processProvider envC3 0 dbC1 [policyC1] providerC3
      = (dbC1, Trace.empty) := by
  have h := billing_failure_isolated envC3 0 [policyC1] dbC1
    [providerC1] [] providerC3 "billing API down" (by rfl)
  simpa using h

/-! ## Pending-violation dedup (claim C2) -/

theorem handleViolation_noop (env : WorkerEnv) (now : ℕ) (db : DB)
    (policy : Policy) (provider : CloudProvider) (result : EvalResult)
    (h : ∃ v ∈ db.violations, v.policyID = policy.id
      ∧ v.status = "pending") :
    handleViolation env now db policy provider result = (db, Trace.empty) := by
  obtain ⟨v, hv, h1, h2⟩ := h
  have hsome : (db.violations.find?
      (fun v => v.policyID == policy.id && v.status == "pending")).isSome := by
    rw [List.find?_isSome]
    exact ⟨v, hv, by simp [h1, h2]⟩
  obtain ⟨w, hw⟩ := Option.isSome_iff_exists.mp hsome
  unfold handleViolation
  rw [hw]

theorem remediate_db_unchanged (env : WorkerEnv) (now : ℕ) (db : DB)
    (policy : Policy) (provider : CloudProvider)
    (violation : PolicyViolation)
    (h : policy.type = "require_tags"
      ∨ (remAction env policy provider).2 ≠ none) :
    (remediate env now db policy provider violation).1 = db := by
  unfold remediate
  rcases h with h | h
  · simp [h]
  · split
    · rfl
    · match hact : (remAction env policy provider).2 with
      | some e => simp [hact]
      | none => exact absurd hact h

theorem handleViolation_creates (env : WorkerEnv) (now : ℕ) (db : DB)
    (policy : Policy) (provider : CloudProvider) (result : EvalResult)
    (hnone : db.violations.find?
      (fun v => v.policyID == policy.id && v.status == "pending") = none)
    (hnoRem : policy.type = "require_tags"
      ∨ (remAction env policy provider).2 ≠ none) :
    (handleViolation env now db policy provider result).1.violations
      = db.violations ++ [mkViolation db policy provider
          (result.msg.getD "Policy violation detected")] := by
  unfold handleViolation
  rw [hnone]
  simp only
  rw [remediate_db_unchanged env now _ policy provider _ hnoRem]

def iterateHandle (env : WorkerEnv) (now : ℕ) (policy : Policy)
    (provider : CloudProvider) (result : EvalResult) : ℕ → DB → DB
  | 0, db => db
  | n + 1, db => iterateHandle env now policy provider result n
      (handleViolation env now db policy provider result).1

theorem iterateHandle_noop (env : WorkerEnv) (now : ℕ) (policy : Policy)
    (provider : CloudProvider) (result : EvalResult) (m : ℕ) (db : DB)
    (hpend : ∃ v ∈ db.violations, v.policyID = policy.id
      ∧ v.status = "pending") :
    iterateHandle env now policy provider result m db = db := by
  induction m with
  | zero => rfl
  | succ m ih =>
    rw [iterateHandle,
      handleViolation_noop env now db policy provider result hpend]
    exact ih

/-- C2: dedup on the pending violation keyed by policy id.  When a
pending violation for the policy already exists, `handleViolation` is a
complete no-op — no violation row, no activity log, no cloud call, no
webhook attempt.  Hence a breach persisting across N ≥ 1 consecutive
ticks, without remediation (the action fails or the type carries none)
or manual resolution, leaves exactly one violation row for that
policy. -/
theorem pending_violation_dedup :
    (∀ (env : WorkerEnv) (now : ℕ) (db : DB) (policy : Policy)
        (provider : CloudProvider) (result : EvalResult),
      (∃ v ∈ db.violations, v.policyID = policy.id ∧ v.status = "pending") →
      handleViolation env now db policy provider result = (db, Trace.empty))
    ∧ (∀ (env : WorkerEnv) (now : ℕ) (db : DB) (policy : Policy)
        (provider : CloudProvider) (result : EvalResult) (N : ℕ),
      1 ≤ N →
      (∀ v ∈ db.violations, v.policyID ≠ policy.id) →
      (policy.type = "require_tags"
        ∨ (remAction env policy provider).2 ≠ none) →
      ((iterateHandle env now policy provider result N db).violations.filter
        (fun v => v.policyID == policy.id)).length = 1) := by
  refine ⟨handleViolation_noop, ?_⟩
  intro env now db policy provider result N hN hinit hnoRem
  obtain ⟨m, rfl⟩ : ∃ m, N = m + 1 := ⟨N - 1, by omega⟩
  have hnone : db.violations.find?
      (fun v => v.policyID == policy.id && v.status == "pending") = none := by
    rw [List.find?_eq_none]
    intro v hv
    simp [hinit v hv]
  set db1 := (handleViolation env now db policy provider result).1 with hdb1
  have hvs : db1.violations = db.violations ++ [mkViolation db policy provider
      (result.msg.getD "Policy violation detected")] :=
    handleViolation_creates env now db policy provider result hnone hnoRem
  have hpend1 : ∃ v ∈ db1.violations, v.policyID = policy.id
      ∧ v.status = "pending" := by
    refine ⟨mkViolation db policy provider
      (result.msg.getD "Policy violation detected"), ?_, rfl, rfl⟩
    rw [hvs]
    simp
  rw [iterateHandle, ← hdb1,
    iterateHandle_noop env now policy provider result m db1 hpend1, hvs]
  rw [List.filter_append]
  have hleft : db.violations.filter (fun v => v.policyID == policy.id) = [] := by
    rw [List.filter_eq_nil_iff]
    intro v hv
    simp [hinit v hv]
  rw [hleft]
  simp [mkViolation]

def policyRT : Policy :=
  { policyC1 with id := "policy-2", type := "require_tags", name := "Tagging" }

def pendingRow : PolicyViolation :=
  { id := "violation-0", policyID := policyC1.id, resourceID := "provider-A"
    resourceType := "cloud_provider", cloudProvider := "aws"
    message := "over budget", severity := "high", status := "pending"
    remediatedAt := none }

def dbPend : DB := { dbC1 with violations := [pendingRow] }

theorem pending_violation_dedup_witness :
    handleViolation envC1 0 dbPend policyC1 providerC1
      { allow := false, msg := some "again" } = (dbPend, Trace.empty)
    ∧ ((iterateHandle envC1 0 policyRT providerC1
        { allow := false, msg := none } 3 dbC1).violations.filter
        (fun v => v.policyID == policyRT.id)).length = 1 :=
  ⟨pending_violation_dedup.1 envC1 0 dbPend policyC1 providerC1
      { allow := false, msg := some "again" }
      ⟨pendingRow, by simp [dbPend, dbC1], rfl, rfl⟩,
   pending_violation_dedup.2 envC1 0 dbC1 policyRT providerC1
      { allow := false, msg := none } 3 (by omega)
      (by intro v hv; simp [dbC1] at hv) (Or.inl (by rfl))⟩

/-! ## Fail-open evaluation (claim C7) -/

/-- C7: fail-open.  At the engine, a rule definition missing from both
the cache and the disk yields `allowed = true` with no error (not
violated).  At the worker, an evaluator error makes `evaluatePolicy`
skip the policy (database untouched, no violation, no cloud call, no
webhook), and the policy loop continues with the remaining policies
exactly as if the failing policy had contributed nothing but its
evaluator invocation. -/
theorem fail_open_evaluation :
    (∀ (rt : OpaRego.RegoRuntime) (cache : List (String × String))
        (disk : String → Option String) (pid : String) (input : OPAInput),
      cache.lookup pid = none → disk pid = none →
      OpaRego.EvaluatePolicy rt cache disk pid input
        = (true, { allow := true, msg := some "policy not found" }, none))
    ∧ (∀ (env : WorkerEnv) (now : ℕ) (db : DB) (policy : Policy)
        (provider : CloudProvider) (billing : BillingData) (e : String),
      (env.opaEval policy.id (mkOPAInput provider billing)).2.2 = some e →
      evaluatePolicy env now db policy provider billing
        = (db, ⟨[(policy.id, provider.id)], [], []⟩))
    ∧ (∀ (env : WorkerEnv) (now : ℕ) (db : DB) (policy : Policy)
        (rest : List Policy) (provider : CloudProvider)
        (billing : BillingData) (e : String),
      policy.organizationID = provider.organizationID →
      (env.opaEval policy.id (mkOPAInput provider billing)).2.2 = some e →
      evalPolicies env now provider billing db (policy :: rest)
        = ((evalPolicies env now provider billing db rest).1,
          (⟨[(policy.id, provider.id)], [], []⟩ : Trace)
            ++ (evalPolicies env now provider billing db rest).2)) := by
  have heval : ∀ (env : WorkerEnv) (now : ℕ) (db : DB) (policy : Policy)
      (provider : CloudProvider) (billing : BillingData) (e : String),
      (env.opaEval policy.id (mkOPAInput provider billing)).2.2 = some e →
      evaluatePolicy env now db policy provider billing
        = (db, ⟨[(policy.id, provider.id)], [], []⟩) := by
    intro env now db policy provider billing e herr
    simp only [evaluatePolicy]
    rw [herr]
  refine ⟨?_, heval, ?_⟩
  · intro rt cache disk pid input hcache hdisk
    unfold OpaRego.EvaluatePolicy
    rw [hcache, hdisk]
  · intro env now db policy rest provider billing e horg herr
    rw [evalPolicies]
    rw [heval env now db policy provider billing e herr]
    simp [horg]

def envC7 : WorkerEnv :=
  { envC1 with opaEval := fun _ _ =>
      (true, { allow := true, msg := none }, some "rego compile failure") }

def rtC7 : OpaRego.RegoRuntime :=
  { prepare := fun _ _ => none
    evalBool := fun _ _ _ => .ok none
    evalString := fun _ _ _ => .ok none }

theorem fail_open_evaluation_witness :
    OpaRego.EvaluatePolicy rtC7 [] (fun _ => none) "policy-1"
        (mkOPAInput providerC1 billingC1)
      = (true, { allow := true, msg := some "policy not found" }, none)
    ∧ evaluatePolicy envC7 0 dbC1 policyC1 providerC1 billingC1
      = (dbC1, ⟨[(policyC1.id, providerC1.id)], [], []⟩)
    ∧ evalPolicies envC7 0 providerC1 billingC1 dbC1 [policyC1]
      = ((evalPolicies envC7 0 providerC1 billingC1 dbC1 []).1,
        (⟨[(policyC1.id, providerC1.id)], [], []⟩ : Trace)
          ++ (evalPolicies envC7 0 providerC1 billingC1 dbC1 []).2) :=
  ⟨fail_open_evaluation.1 rtC7 [] (fun _ => none) "policy-1"
      (mkOPAInput providerC1 billingC1) rfl rfl,
   fail_open_evaluation.2.1 envC7 0 dbC1 policyC1 providerC1 billingC1
      "rego compile failure" rfl,
   fail_open_evaluation.2.2 envC7 0 dbC1 policyC1 [] providerC1 billingC1
      "rego compile failure" rfl rfl⟩

/-! ## Webhook fan-out resilience (claim C8) -/

theorem remediate_httpPost_irrelevant (env : WorkerEnv)
    (g : String → WebhookPayload → Except String ℕ) (now : ℕ) (db : DB)
    (policy : Policy) (provider : CloudProvider)
    (violation : PolicyViolation) :
    remediate { env with httpPost := g } now db policy provider violation
      = remediate env now db policy provider violation := by
  unfold remediate remAction StopNonEssentialResources
    TerminateOversizedInstances StopIdleResources
  rfl

/-- C8: webhook fan-out.  Exactly one delivery attempt is made per
enabled webhook of the organization, in order, regardless of the
outcome of earlier deliveries (the attempt list maps the webhook list
one-to-one); every attempt is an HTTP POST with
`Content-Type: application/json` whose success is exactly a 2xx
response; and the HTTP oracle — hence any delivery failure or timeout —
has no influence on the database `handleViolation` produces, so a
failed delivery never changes the violation's state. -/
theorem webhook_fanout_resilient (env : WorkerEnv) (db : DB)
    (orgID : String) (violation : PolicyViolation) (policy : Policy)
    (hfind : db.policies.find? (fun p => p.id == violation.policyID)
      = some policy) :
    ((sendWebhooks env db orgID violation).map (fun a => a.url)
      = (db.webhooks.filter
          (fun w => w.organizationID == orgID && w.enabled)).map
          (fun w => w.url))
    ∧ (∀ a ∈ sendWebhooks env db orgID violation,
        a.contentType = "application/json"
        ∧ (a.success = true ↔ ∃ code, env.httpPost a.url a.payload
            = .ok code ∧ 200 ≤ code ∧ code < 300))
    ∧ (∀ (g : String → WebhookPayload → Except String ℕ) (now : ℕ)
        (db2 : DB) (policy2 : Policy) (provider2 : CloudProvider)
        (result2 : EvalResult),
      (handleViolation { env with httpPost := g } now db2 policy2
          provider2 result2).1
        = (handleViolation env now db2 policy2 provider2 result2).1) := by
  refine ⟨?_, ?_, ?_⟩
  · unfold sendWebhooks
    rw [hfind]
    simp [List.map_map]
  · intro a ha
    unfold sendWebhooks at ha
    rw [hfind] at ha
    simp only [List.mem_map] at ha
    obtain ⟨wh, hwh, rfl⟩ := ha
    refine ⟨rfl, ?_⟩
    simp only [sendWebhookRequest]
    match hpost : env.httpPost wh.url
        (formatWebhookPayload wh.type policy violation) with
    | .error e => simp [hpost]
    | .ok code =>
      simp only [hpost]
      constructor
      · intro hcode
        split at hcode
        · simp at hcode
        · next hrange =>
          simp only [Bool.or_eq_true, decide_eq_true_eq, not_or, not_lt,
            not_le] at hrange
          exact ⟨code, rfl, by omega, by omega⟩
      · rintro ⟨c, hc, h1, h2⟩
        obtain rfl : code = c := by
          simpa using hc
        split
        · next hrange =>
          simp only [Bool.or_eq_true, decide_eq_true_eq] at hrange
          omega
        · rfl
  · intro g now db2 policy2 provider2 result2
    unfold handleViolation
    match hfind2 : db2.violations.find?
        (fun v => v.policyID == policy2.id && v.status == "pending") with
    | some w => rw [hfind2]
    | none =>
      simp only [hfind2, remediate_httpPost_irrelevant]

def violationC8 : PolicyViolation := { pendingRow with id := "violation-8" }

theorem webhook_fanout_resilient_witness :
    (sendWebhooks envC1 dbC9 "org-O" violationC8).map (fun a => a.url)
      = (dbC9.webhooks.filter
          (fun w => w.organizationID == "org-O" && w.enabled)).map
          (fun w => w.url) :=
  (webhook_fanout_resilient envC1 dbC9 "org-O" violationC8 policyC1
    (by rfl)).1

end FinOpsBridge
